import Mathlib

/-!
Verification of the pose/frame resampling tools.

This file shallowly embeds the two scripts `change_camera_framecount.py`
and `change_video_framecount.py`.  Floating-point arithmetic of the source
is modelled by exact arithmetic: the index mapping (`p = k*N/M`,
`i = floor p`, `alpha = p - i`) is carried out in `ℚ`, and all geometric
computation (quaternions, rotation matrices, pixel blending) in `ℝ`.
-/

namespace RecamSpec

noncomputable section

/-- A quaternion as the 4-vector `(w, x, y, z)` used by the script. -/
@[ext] structure Quat where
  w : ℝ
  x : ℝ
  y : ℝ
  z : ℝ

/-- A 3-component translation vector. -/
@[ext] structure Vec3 where
  x : ℝ
  y : ℝ
  z : ℝ

/-- A 3x3 matrix with entries named after the `m[i, j]` indexing of the source. -/
@[ext] structure Mat3 where
  m00 : ℝ
  m01 : ℝ
  m02 : ℝ
  m10 : ℝ
  m11 : ℝ
  m12 : ℝ
  m20 : ℝ
  m21 : ℝ
  m22 : ℝ

/-- A 4x4 homogeneous pose matrix, the element type of the `poses` JSON array. -/
@[ext] structure Mat4 where
  a00 : ℝ
  a01 : ℝ
  a02 : ℝ
  a03 : ℝ
  a10 : ℝ
  a11 : ℝ
  a12 : ℝ
  a13 : ℝ
  a20 : ℝ
  a21 : ℝ
  a22 : ℝ
  a23 : ℝ
  a30 : ℝ
  a31 : ℝ
  a32 : ℝ
  a33 : ℝ

/-- Default element used for (never-taken) out-of-range list reads. -/
def mat4Default : Mat4 := ⟨0,0,0,0,0,0,0,0,0,0,0,0,0,0,0,0⟩

instance : Inhabited Mat4 := ⟨mat4Default⟩

/- Componentwise quaternion arithmetic (numpy array operations in the source). -/

/-- Quaternion addition. -/
def qadd (p q : Quat) : Quat := ⟨p.w + q.w, p.x + q.x, p.y + q.y, p.z + q.z⟩

/-- Quaternion subtraction. -/
def qsub (p q : Quat) : Quat := ⟨p.w - q.w, p.x - q.x, p.y - q.y, p.z - q.z⟩

/-- Quaternion negation (`-q1` in the source). -/
def qneg (q : Quat) : Quat := ⟨-q.w, -q.x, -q.y, -q.z⟩

/-- Scalar multiple of a quaternion. -/
def qscale (s : ℝ) (q : Quat) : Quat := ⟨s * q.w, s * q.x, s * q.y, s * q.z⟩

/-- Componentwise division by a scalar (`q / np.linalg.norm(q)`). -/
def qdiv (q : Quat) (s : ℝ) : Quat := ⟨q.w / s, q.x / s, q.y / s, q.z / s⟩

/-- Dot product of two quaternions (`np.dot`). -/
def qdot (p q : Quat) : ℝ := p.w * q.w + p.x * q.x + p.y * q.y + p.z * q.z

/-- Squared Euclidean norm of a quaternion. -/
def normSq (q : Quat) : ℝ := q.w ^ 2 + q.x ^ 2 + q.y ^ 2 + q.z ^ 2

/-- Euclidean norm (`np.linalg.norm`). -/
def qnorm (q : Quat) : ℝ := Real.sqrt (normSq q)

/-- The zero quaternion. -/
def qzero : Quat := ⟨0, 0, 0, 0⟩

/-- Embedding of `quat_to_rot` (source lines 65-75): the closed-form bilinear
expansion of a quaternion into a 3x3 matrix. -/
def quat_to_rot (q : Quat) : Mat3 :=
  { m00 := q.w * q.w + q.x * q.x - q.y * q.y - q.z * q.z
    m01 := 2 * (q.x * q.y - q.w * q.z)
    m02 := 2 * (q.x * q.z + q.w * q.y)
    m10 := 2 * (q.x * q.y + q.w * q.z)
    m11 := q.w * q.w - q.x * q.x + q.y * q.y - q.z * q.z
    m12 := 2 * (q.y * q.z - q.w * q.x)
    m20 := 2 * (q.x * q.z - q.w * q.y)
    m21 := 2 * (q.y * q.z + q.w * q.x)
    m22 := q.w * q.w - q.x * q.x - q.y * q.y + q.z * q.z }

/-- Embedding of `rot_to_quat` (source lines 33-62): trace-based extraction with
three largest-diagonal sub-cases, followed by normalization to unit length. -/
def rot_to_quat (m : Mat3) : Quat :=
  let tr := m.m00 + m.m11 + m.m22
  let q : Quat :=
    if 0 < tr then
      let s := 0.5 / Real.sqrt (tr + 1)
      ⟨0.25 / s, (m.m21 - m.m12) * s, (m.m02 - m.m20) * s, (m.m10 - m.m01) * s⟩
    else if m.m00 > m.m11 ∧ m.m00 > m.m22 then
      let s := 2 * Real.sqrt (1 + m.m00 - m.m11 - m.m22)
      ⟨(m.m21 - m.m12) / s, 0.25 * s, (m.m01 + m.m10) / s, (m.m02 + m.m20) / s⟩
    else if m.m11 > m.m22 then
      let s := 2 * Real.sqrt (1 + m.m11 - m.m00 - m.m22)
      ⟨(m.m02 - m.m20) / s, (m.m01 + m.m10) / s, 0.25 * s, (m.m12 + m.m21) / s⟩
    else
      let s := 2 * Real.sqrt (1 + m.m22 - m.m00 - m.m11)
      ⟨(m.m10 - m.m01) / s, (m.m02 + m.m20) / s, (m.m12 + m.m21) / s, 0.25 * s⟩
  qdiv q (qnorm q)

/-- Core of `quat_slerp` after the two input normalizations (source lines 81-93):
hemisphere alignment, near-unity linear fallback, spherical branch. -/
def slerp_core (q0n q1n : Quat) (t : ℝ) : Quat :=
  let d := qdot q0n q1n
  let q1a := if d < 0 then qneg q1n else q1n
  let da := if d < 0 then -d else d
  if 0.9995 < da then
    let r := qadd q0n (qscale t (qsub q1a q0n))
    qdiv r (qnorm r)
  else
    let th := Real.arccos (max (min da 1) (-1)) * t
    let q2u := qsub q1a (qscale da q0n)
    let q2 := qdiv q2u (qnorm q2u)
    qadd (qscale (Real.cos th) q0n) (qscale (Real.sin th) q2)

/-- Embedding of `quat_slerp` (source lines 78-93): both inputs are normalized,
then the aligned interpolation core runs. -/
def quat_slerp (q0 q1 : Quat) (t : ℝ) : Quat :=
  slerp_core (qdiv q0 (qnorm q0)) (qdiv q1 (qnorm q1)) t

/-- Embedding of `mat4_to_rt` (source lines 21-24): extract the rotation block
and the translation column of a 4x4 pose. -/
def mat4_to_rt (p : Mat4) : Mat3 × Vec3 :=
  (⟨p.a00, p.a01, p.a02, p.a10, p.a11, p.a12, p.a20, p.a21, p.a22⟩,
   ⟨p.a03, p.a13, p.a23⟩)

/-- Embedding of `rt_to_mat4` (source lines 27-30): assemble a 4x4 pose with a
fixed `[0, 0, 0, 1]` bottom row. -/
def rt_to_mat4 (R : Mat3) (t : Vec3) : Mat4 :=
  ⟨R.m00, R.m01, R.m02, t.x,
   R.m10, R.m11, R.m12, t.y,
   R.m20, R.m21, R.m22, t.z,
   0, 0, 0, 1⟩

/- Index mapping shared by both resamplers (source lines 117-119 and 77-79):
`p = (k * N) / M`, `i = floor p`, `alpha = p - i`, in exact arithmetic. -/

/-- Continuous source position of target index `k`. -/
def posIndex (N M k : ℕ) : ℚ := (k * N : ℚ) / M

/-- Integer neighbor index `i = floor p`. -/
def nbrIndex (N M k : ℕ) : ℤ := ⌊posIndex N M k⌋

/-- Interpolation weight `alpha = p - i`. -/
def weight (N M k : ℕ) : ℚ := posIndex N M k - nbrIndex N M k

/-- Linear interpolation of translations
(`(1.0 - alpha) * ts[i] + alpha * ts[i + 1]`, source line 127). -/
def vlerp (v0 v1 : Vec3) (a : ℝ) : Vec3 :=
  ⟨(1 - a) * v0.x + a * v1.x, (1 - a) * v0.y + a * v1.y, (1 - a) * v0.z + a * v1.z⟩

/-- Interior-branch pose reconstruction (source lines 126-129): slerp the two
neighbor rotations, lerp the two translations, reassemble a 4x4 pose. -/
def interpPose (poses : List Mat4) (j : ℕ) (a : ℝ) : Mat4 :=
  let Pi := poses.getD j mat4Default
  let Pj := poses.getD (j + 1) mat4Default
  rt_to_mat4
    (quat_to_rot (quat_slerp (rot_to_quat (mat4_to_rt Pi).1) (rot_to_quat (mat4_to_rt Pj).1) a))
    (vlerp (mat4_to_rt Pi).2 (mat4_to_rt Pj).2 a)

/-- Body of the pose resampling loop for a single target index `k`
(source lines 116-129). -/
def resampleItemP (poses : List Mat4) (M k : ℕ) : Mat4 :=
  let N := poses.length
  let i := nbrIndex N M k
  if i < 0 then poses.getD 0 mat4Default
  else if (N : ℤ) - 1 ≤ i then poses.getD (N - 1) mat4Default
  else interpPose poses i.toNat ((weight N M k : ℚ) : ℝ)

/-- The list of `M` output poses produced by the loop of `resample_poses`. -/
def resample_poses_list (poses : List Mat4) (M : ℕ) : List Mat4 :=
  (List.range M).map (resampleItemP poses M)

/-- Embedding of `resample_poses` (source lines 96-131): raises (`none`) on an
empty input, otherwise produces exactly the `M` mapped items. -/
def resample_poses (poses : List Mat4) (M : ℕ) : Option (List Mat4) :=
  if poses.length = 0 then none else some (resample_poses_list poses M)

/- The video tool.  A decoded frame is modelled as a real-valued raster
(pixel index to value); `cv2.addWeighted` is modelled as the exact
elementwise weighted sum it computes (uint8 saturation idealized away). -/

/-- A decoded video frame: pixel position to intensity. -/
abbrev Frame : Type := ℕ → ℝ

/-- Default frame for (never-taken) out-of-range reads. -/
def frameDefault : Frame := fun _ => 0

/-- Embedding of `cv2.addWeighted(a, wa, b, wb, gamma)`: elementwise
`a*wa + b*wb + gamma`. -/
def addWeighted (a : Frame) (wa : ℝ) (b : Frame) (wb : ℝ) (gamma : ℝ) : Frame :=
  fun p => a p * wa + b p * wb + gamma

/-- Body of the frame resampling loop for a single target index `k`
(source lines 76-89 of `change_video_framecount.py`). -/
def resampleItemF (frames : List Frame) (M k : ℕ) : Frame :=
  let N := frames.length
  let i := nbrIndex N M k
  if i < 0 then frames.getD 0 frameDefault
  else if (N : ℤ) - 1 ≤ i then frames.getD (N - 1) frameDefault
  else
    addWeighted (frames.getD i.toNat frameDefault) (1 - ((weight N M k : ℚ) : ℝ))
      (frames.getD (i.toNat + 1) frameDefault) ((weight N M k : ℚ) : ℝ) 0

/-- The list of `M` frames written by the loop of `resample_frames`. -/
def resample_frames_core (frames : List Frame) (M : ℕ) : List Frame :=
  (List.range M).map (resampleItemF frames M)

/-- Source duration (source line 67): `N / fps_orig if fps_orig > 0 else N`. -/
def duration (N : ℕ) (fps : ℚ) : ℚ :=
  if 0 < fps then (N : ℚ) / fps else (N : ℚ)

/-- Derived output frame rate (source line 68):
`M / duration if duration > 0 else fps_orig`. -/
def fps_new (N M : ℕ) (fps : ℚ) : ℚ :=
  if 0 < duration N fps then (M : ℚ) / duration N fps else fps

end

/- Error taxonomy and the CLI boundary of the two `main` functions. -/

/-- The spec's error taxonomy. -/
inductive ErrCat
  | inputNotFound
  | missingField
  | invalidTargetCount
  | emptyInput
  | decoderOpenFailure
  | encoderOpenFailure
deriving DecidableEq

/-- Outcome of one invocation of the pose tool. -/
inductive PoseRun
  | ok (out : List Mat4)
  | err (cat : ErrCat) (exitCode : ℕ)

/-- Outcome of one invocation of the video tool. -/
inductive VideoRun
  | ok (out : List Frame) (fps : ℚ)
  | err (cat : ErrCat) (exitCode : ℕ)

/-- Embedding of the pose tool's `main` error dispatch (source lines 141-158):
missing input exits 2, missing `poses` key exits 3, non-positive target exits 4;
an empty pose list raises an uncaught `ValueError`, which terminates the Python
process with status 1. -/
noncomputable def poseToolRun (inputExists hasPosesKey : Bool) (m : ℤ)
    (poses : List Mat4) : PoseRun :=
  if inputExists = false then .err .inputNotFound 2
  else if hasPosesKey = false then .err .missingField 3
  else if m ≤ 0 then .err .invalidTargetCount 4
  else
    match resample_poses poses m.toNat with
    | none => .err .emptyInput 1
    | some out => .ok out

/-- Embedding of the video tool's `main` error dispatch (source lines 105-113
together with the raises inside `resample_frames`): missing input exits 2;
every exception raised inside `resample_frames` (decoder open failure, empty
input, non-positive target count, encoder open failure) is caught by the
generic handler and exits 1. -/
noncomputable def videoToolRun (inputExists decoderOpens : Bool) (frames : List Frame)
    (fps : ℚ) (m : ℤ) (encoderOpens : Bool) : VideoRun :=
  if inputExists = false then .err .inputNotFound 2
  else if decoderOpens = false then .err .decoderOpenFailure 1
  else if frames.length = 0 then .err .emptyInput 1
  else if m ≤ 0 then .err .invalidTargetCount 1
  else if encoderOpens = false then .err .encoderOpenFailure 1
  else .ok (resample_frames_core frames m.toNat) (fps_new frames.length m.toNat fps)

/- The pose JSON document at the top level, for the field-effect claim.  A
document is an ordered association list of top-level keys; assignment follows
Python dict semantics (replace in place if present, else append). -/

/-- A top-level JSON value of the pose document. -/
inductive JVal
  | num (n : ℤ)
  | mats (ps : List Mat4)
  | str (s : String)

/-- A pose JSON document: ordered top-level key/value pairs with unique keys. -/
abbrev Doc : Type := List (String × JVal)

/-- Python dict read `d[k]` / `k in d`: first binding of the key, if any. -/
def getKey (d : Doc) (k : String) : Option JVal :=
  match d with
  | [] => none
  | kv :: tl => if kv.1 = k then some kv.2 else getKey tl k

/-- Python dict assignment `d[k] = v`: overwrite in place or append. -/
def setKey (d : Doc) (k : String) (v : JVal) : Doc :=
  if (getKey d k).isSome then d.map (fun kv => if kv.1 = k then (k, v) else kv)
  else d ++ [(k, v)]

/-- The poses array of a document (the `data['poses']` read). -/
def posesOf (d : Doc) : List Mat4 :=
  match getKey d "poses" with
  | some (.mats ps) => ps
  | _ => []

/-- Embedding of the output-document construction of the pose tool's `main`
(source lines 158-162): copy the input document, replace `poses`, record the
original and target counts. -/
noncomputable def poseToolDoc (d : Doc) (M : ℕ) : Doc :=
  setKey (setKey (setKey d "poses" (.mats ((resample_poses (posesOf d) M).getD [])))
      "original_num_poses" (.num (posesOf d).length))
    "target_num_poses" (.num M)

/- Validity predicates from the spec's data model. -/

/-- The matrix is orthonormal (rows) with determinant `+1`. -/
def isSO3 (m : Mat3) : Prop :=
  m.m00 ^ 2 + m.m01 ^ 2 + m.m02 ^ 2 = 1 ∧
  m.m10 ^ 2 + m.m11 ^ 2 + m.m12 ^ 2 = 1 ∧
  m.m20 ^ 2 + m.m21 ^ 2 + m.m22 ^ 2 = 1 ∧
  m.m00 * m.m10 + m.m01 * m.m11 + m.m02 * m.m12 = 0 ∧
  m.m00 * m.m20 + m.m01 * m.m21 + m.m02 * m.m22 = 0 ∧
  m.m10 * m.m20 + m.m11 * m.m21 + m.m12 * m.m22 = 0 ∧
  m.m00 * (m.m11 * m.m22 - m.m12 * m.m21) - m.m01 * (m.m10 * m.m22 - m.m12 * m.m20)
    + m.m02 * (m.m10 * m.m21 - m.m11 * m.m20) = 1

/-- A valid pose: rotation block in SO(3), bottom row fixed to `[0,0,0,1]`. -/
def isPose (p : Mat4) : Prop :=
  isSO3 (mat4_to_rt p).1 ∧ p.a30 = 0 ∧ p.a31 = 0 ∧ p.a32 = 0 ∧ p.a33 = 1

/- Polynomial identities of rotation matrices used by the quaternion
extraction.  Entries are named `a b c / d e f / g h i` row by row. -/

/-- A sum of three real squares is zero only if each term vanishes. -/
lemma sq3_zero (x y z : ℝ) (h : x ^ 2 + y ^ 2 + z ^ 2 = 0) :
    x = 0 ∧ y = 0 ∧ z = 0 := by
  have n1 := sq_nonneg x
  have n2 := sq_nonneg y
  have n3 := sq_nonneg z
  have z1 : x ^ 2 = 0 := by linarith
  have z2 : y ^ 2 = 0 := by linarith
  have z3 : z ^ 2 = 0 := by linarith
  exact ⟨(pow_eq_zero_iff (by norm_num)).mp z1, (pow_eq_zero_iff (by norm_num)).mp z2,
    (pow_eq_zero_iff (by norm_num)).mp z3⟩

/-- Cofactor identities for row 0 of a rotation matrix: the cross product of
rows 1 and 2 equals row 0. -/
lemma so3_cof_row0 (a b c d e f g h i : ℝ)
    (R0 : a ^ 2 + b ^ 2 + c ^ 2 = 1) (R1 : d ^ 2 + e ^ 2 + f ^ 2 = 1)
    (R2 : g ^ 2 + h ^ 2 + i ^ 2 = 1)
    (D12 : d * g + e * h + f * i = 0)
    (DET : a * (e * i - f * h) - b * (d * i - f * g) + c * (d * h - e * g) = 1) :
    e * i - f * h = a ∧ f * g - d * i = b ∧ d * h - e * g = c := by
  have key : (e * i - f * h - a) ^ 2 + (f * g - d * i - b) ^ 2 + (d * h - e * g - c) ^ 2 = 0 := by
    linear_combination (g ^ 2 + h ^ 2 + i ^ 2) * R1 + R2 - (d * g + e * h + f * i) * D12
      - 2 * DET + R0
  obtain ⟨z1, z2, z3⟩ := sq3_zero _ _ _ key
  exact ⟨by linarith, by linarith, by linarith⟩

/-- Cofactor identities for row 1: the cross product of rows 2 and 0 equals row 1. -/
lemma so3_cof_row1 (a b c d e f g h i : ℝ)
    (R0 : a ^ 2 + b ^ 2 + c ^ 2 = 1) (R1 : d ^ 2 + e ^ 2 + f ^ 2 = 1)
    (R2 : g ^ 2 + h ^ 2 + i ^ 2 = 1)
    (D02 : a * g + b * h + c * i = 0)
    (DET : a * (e * i - f * h) - b * (d * i - f * g) + c * (d * h - e * g) = 1) :
    c * h - b * i = d ∧ a * i - c * g = e ∧ b * g - a * h = f := by
  have key : (c * h - b * i - d) ^ 2 + (a * i - c * g - e) ^ 2 + (b * g - a * h - f) ^ 2 = 0 := by
    linear_combination (a ^ 2 + b ^ 2 + c ^ 2) * R2 + R0 - (a * g + b * h + c * i) * D02
      - 2 * DET + R1
  obtain ⟨z1, z2, z3⟩ := sq3_zero _ _ _ key
  exact ⟨by linarith, by linarith, by linarith⟩

/-- Cofactor identities for row 2: the cross product of rows 0 and 1 equals row 2. -/
lemma so3_cof_row2 (a b c d e f g h i : ℝ)
    (R0 : a ^ 2 + b ^ 2 + c ^ 2 = 1) (R1 : d ^ 2 + e ^ 2 + f ^ 2 = 1)
    (R2 : g ^ 2 + h ^ 2 + i ^ 2 = 1)
    (D01 : a * d + b * e + c * f = 0)
    (DET : a * (e * i - f * h) - b * (d * i - f * g) + c * (d * h - e * g) = 1) :
    b * f - c * e = g ∧ c * d - a * f = h ∧ a * e - b * d = i := by
  have key : (b * f - c * e - g) ^ 2 + (c * d - a * f - h) ^ 2 + (a * e - b * d - i) ^ 2 = 0 := by
    linear_combination (d ^ 2 + e ^ 2 + f ^ 2) * R0 + R1 - (a * d + b * e + c * f) * D01
      - 2 * DET + R2
  obtain ⟨z1, z2, z3⟩ := sq3_zero _ _ _ key
  exact ⟨by linarith, by linarith, by linarith⟩

/-- The twelve pairwise-product identities between the off-diagonal
differences/sums and the four trace combinations `1 ± a ± e ± i`, which drive
every branch of the matrix-to-quaternion extraction. -/
lemma so3_products (a b c d e f g h i : ℝ)
    (R0 : a ^ 2 + b ^ 2 + c ^ 2 = 1) (R1 : d ^ 2 + e ^ 2 + f ^ 2 = 1)
    (R2 : g ^ 2 + h ^ 2 + i ^ 2 = 1)
    (D01 : a * d + b * e + c * f = 0) (D02 : a * g + b * h + c * i = 0)
    (D12 : d * g + e * h + f * i = 0)
    (DET : a * (e * i - f * h) - b * (d * i - f * g) + c * (d * h - e * g) = 1) :
    ((h - f) * (c - g) = (1 + a + e + i) * (b + d) ∧
     (h - f) * (d - b) = (1 + a + e + i) * (c + g) ∧
     (c - g) * (d - b) = (1 + a + e + i) * (f + h)) ∧
    ((h - f) * (c + g) = (1 + a - e - i) * (d - b) ∧
     (h - f) * (b + d) = (1 + a - e - i) * (c - g) ∧
     (b + d) * (c + g) = (1 + a - e - i) * (f + h)) ∧
    ((c - g) * (f + h) = (1 + e - a - i) * (d - b) ∧
     (b + d) * (f + h) = (1 + e - a - i) * (c + g) ∧
     (c - g) * (b + d) = (1 + e - a - i) * (h - f)) ∧
    ((c + g) * (f + h) = (1 + i - a - e) * (b + d) ∧
     (d - b) * (f + h) = (1 + i - a - e) * (c - g) ∧
     (d - b) * (c + g) = (1 + i - a - e) * (h - f)) := by
  obtain ⟨CA, CB, CC⟩ := so3_cof_row0 a b c d e f g h i R0 R1 R2 D12 DET
  obtain ⟨CD, CE, CF⟩ := so3_cof_row1 a b c d e f g h i R0 R1 R2 D02 DET
  obtain ⟨CG, CH, CI⟩ := so3_cof_row2 a b c d e f g h i R0 R1 R2 D01 DET
  have CD01 : a * b + d * e + g * h = 0 := by
    linear_combination (-a) * CB + (-d) * CE + (-g) * CH
  have CD02 : a * c + d * f + g * i = 0 := by
    linear_combination (-a) * CC + (-d) * CF + (-g) * CI
  have CD12 : b * c + e * f + h * i = 0 := by
    linear_combination (-b) * CC + (-e) * CF + (-h) * CI
  refine ⟨⟨?_, ?_, ?_⟩, ⟨?_, ?_, ?_⟩, ⟨?_, ?_, ?_⟩, ⟨?_, ?_, ?_⟩⟩
  · linear_combination CD + CB - D01 - CD01
  · linear_combination CC + CG - D02 - CD02
  · linear_combination CH + CF - D12 - CD12
  · linear_combination CD - CB - D01 + CD01
  · linear_combination CC - CG + D02 - CD02
  · linear_combination CF + CH + D12 + CD12
  · linear_combination CD - CB + D01 - CD01
  · linear_combination CG + CC + D02 + CD02
  · linear_combination CH - CF - D12 + CD12
  · linear_combination CD + CB + D01 + CD01
  · linear_combination CC - CG - D02 + CD02
  · linear_combination CH - CF + D12 - CD12

/-- The six square identities `(h-f)^2 = T*S` and friends, where
`T,S,U,V = 1 ± a ± e ± i` are the four trace combinations. -/
lemma so3_squares (a b c d e f g h i : ℝ)
    (R0 : a ^ 2 + b ^ 2 + c ^ 2 = 1) (R1 : d ^ 2 + e ^ 2 + f ^ 2 = 1)
    (R2 : g ^ 2 + h ^ 2 + i ^ 2 = 1)
    (D01 : a * d + b * e + c * f = 0) (D02 : a * g + b * h + c * i = 0)
    (D12 : d * g + e * h + f * i = 0)
    (DET : a * (e * i - f * h) - b * (d * i - f * g) + c * (d * h - e * g) = 1) :
    (h - f) ^ 2 = (1 + a + e + i) * (1 + a - e - i) ∧
    (c - g) ^ 2 = (1 + a + e + i) * (1 + e - a - i) ∧
    (d - b) ^ 2 = (1 + a + e + i) * (1 + i - a - e) ∧
    (b + d) ^ 2 = (1 + a - e - i) * (1 + e - a - i) ∧
    (c + g) ^ 2 = (1 + a - e - i) * (1 + i - a - e) ∧
    (f + h) ^ 2 = (1 + e - a - i) * (1 + i - a - e) := by
  obtain ⟨CA, CB, CC⟩ := so3_cof_row0 a b c d e f g h i R0 R1 R2 D12 DET
  obtain ⟨CD, CE, CF⟩ := so3_cof_row1 a b c d e f g h i R0 R1 R2 D02 DET
  obtain ⟨CG, CH, CI⟩ := so3_cof_row2 a b c d e f g h i R0 R1 R2 D01 DET
  have C0sq : a ^ 2 + d ^ 2 + g ^ 2 = 1 := by
    linear_combination DET - a * CA - d * CD - g * CG
  have C1sq : b ^ 2 + e ^ 2 + h ^ 2 = 1 := by
    linear_combination DET - b * CB - e * CE - h * CH
  have C2sq : c ^ 2 + f ^ 2 + i ^ 2 = 1 := by
    linear_combination DET - c * CC - f * CF - i * CI
  refine ⟨?_, ?_, ?_, ?_, ?_, ?_⟩
  · linear_combination R1 + R2 - C0sq + 2 * CA
  · linear_combination R0 + R2 - C1sq + 2 * CE
  · linear_combination R0 + R1 - C2sq + 2 * CI
  · linear_combination R0 + R1 - C2sq - 2 * CI
  · linear_combination R0 + R2 - C1sq - 2 * CE
  · linear_combination R1 + R2 - C0sq - 2 * CA

/- Basic quaternion norm lemmas. -/

/-- Norm of a unit-square-norm quaternion is 1. -/
lemma qnorm_eq_one {q : Quat} (h : normSq q = 1) : qnorm q = 1 := by
  rw [qnorm, h, Real.sqrt_one]

/-- Dividing by 1 leaves a quaternion unchanged. -/
lemma qdiv_one (q : Quat) : qdiv q 1 = q := by
  apply Quat.ext <;> simp [qdiv]

/-- Normalizing a quaternion that already has unit square norm is the identity. -/
lemma normalize_self {q : Quat} (h : normSq q = 1) : qdiv q (qnorm q) = q := by
  rw [qnorm_eq_one h, qdiv_one]

/-- Square norm of a scalar quotient. -/
lemma normSq_qdiv (q : Quat) (s : ℝ) : normSq (qdiv q s) = normSq q / s ^ 2 := by
  simp only [normSq, qdiv, div_pow]
  ring

/-- Square norms are nonnegative. -/
lemma normSq_nonneg (q : Quat) : 0 ≤ normSq q := by
  simp only [normSq]
  positivity

/-- Normalizing a quaternion of positive square norm yields unit square norm. -/
lemma normSq_normalize {q : Quat} (h : 0 < normSq q) :
    normSq (qdiv q (qnorm q)) = 1 := by
  rw [normSq_qdiv, qnorm, Real.sq_sqrt (normSq_nonneg q), div_self (ne_of_gt h)]

/-- A nonzero quaternion has positive square norm. -/
lemma normSq_pos_of_ne {q : Quat} (h : q ≠ qzero) : 0 < normSq q := by
  rcases eq_or_lt_of_le (normSq_nonneg q) with heq | hlt
  · exfalso
    apply h
    have hsum : q.w ^ 2 + q.x ^ 2 + q.y ^ 2 + q.z ^ 2 = 0 := by
      simpa [normSq] using heq.symm
    have zw : q.w ^ 2 = 0 := by
      linarith [sq_nonneg q.w, sq_nonneg q.x, sq_nonneg q.y, sq_nonneg q.z]
    have zx : q.x ^ 2 = 0 := by
      linarith [sq_nonneg q.w, sq_nonneg q.x, sq_nonneg q.y, sq_nonneg q.z]
    have zy : q.y ^ 2 = 0 := by
      linarith [sq_nonneg q.w, sq_nonneg q.x, sq_nonneg q.y, sq_nonneg q.z]
    have zz : q.z ^ 2 = 0 := by
      linarith [sq_nonneg q.w, sq_nonneg q.x, sq_nonneg q.y, sq_nonneg q.z]
    apply Quat.ext <;>
      simp [qzero, (pow_eq_zero_iff (two_ne_zero)).mp zw, (pow_eq_zero_iff (two_ne_zero)).mp zx,
        (pow_eq_zero_iff (two_ne_zero)).mp zy, (pow_eq_zero_iff (two_ne_zero)).mp zz]
  · exact hlt

/-- Building a rotation matrix from a quaternion candidate `v / (2r)`:
if the four components satisfy the eighteen polynomial constraints scaled by
`4R = 4r^2`, the candidate has unit square norm and maps onto `m`. -/
lemma quat_build (m : Mat3) (v0 v1 v2 v3 r R : ℝ) (hr : 0 < r) (hr2 : r ^ 2 = R)
    (hn : v0 ^ 2 + v1 ^ 2 + v2 ^ 2 + v3 ^ 2 = 4 * R)
    (h00 : v0 ^ 2 + v1 ^ 2 - v2 ^ 2 - v3 ^ 2 = 4 * R * m.m00)
    (h01 : 2 * (v1 * v2 - v0 * v3) = 4 * R * m.m01)
    (h02 : 2 * (v1 * v3 + v0 * v2) = 4 * R * m.m02)
    (h10 : 2 * (v1 * v2 + v0 * v3) = 4 * R * m.m10)
    (h11 : v0 ^ 2 - v1 ^ 2 + v2 ^ 2 - v3 ^ 2 = 4 * R * m.m11)
    (h12 : 2 * (v2 * v3 - v0 * v1) = 4 * R * m.m12)
    (h20 : 2 * (v1 * v3 - v0 * v2) = 4 * R * m.m20)
    (h21 : 2 * (v2 * v3 + v0 * v1) = 4 * R * m.m21)
    (h22 : v0 ^ 2 - v1 ^ 2 - v2 ^ 2 + v3 ^ 2 = 4 * R * m.m22) :
    normSq ⟨v0 / (2 * r), v1 / (2 * r), v2 / (2 * r), v3 / (2 * r)⟩ = 1 ∧
    quat_to_rot ⟨v0 / (2 * r), v1 / (2 * r), v2 / (2 * r), v3 / (2 * r)⟩ = m := by
  subst hr2
  have hrne : r ≠ 0 := ne_of_gt hr
  constructor
  · simp only [normSq]
    field_simp
    linear_combination hn
  · refine Mat3.ext ?_ ?_ ?_ ?_ ?_ ?_ ?_ ?_ ?_ <;> simp only [quat_to_rot] <;> field_simp
    · linear_combination h00
    · linear_combination h01
    · linear_combination h02
    · linear_combination h10
    · linear_combination h11
    · linear_combination h12
    · linear_combination h20
    · linear_combination h21
    · linear_combination h22

/-- Branch 1 of the extraction (`trace > 0`): the computed quaternion has unit
square norm and reconstructs the input matrix. -/
lemma rot_to_quat_branch1 (m : Mat3) (hm : isSO3 m)
    (htr : 0 < m.m00 + m.m11 + m.m22) :
    normSq (rot_to_quat m) = 1 ∧ quat_to_rot (rot_to_quat m) = m := by
  obtain ⟨R0, R1, R2, D01, D02, D12, DET⟩ := hm
  obtain ⟨SQ1, SQ2, SQ3, SQ4, SQ5, SQ6⟩ :=
    so3_squares m.m00 m.m01 m.m02 m.m10 m.m11 m.m12 m.m20 m.m21 m.m22
      R0 R1 R2 D01 D02 D12 DET
  obtain ⟨⟨P1, P2, P3⟩, ⟨Q1, Q2, Q3⟩, ⟨P4, Q4, P5⟩, ⟨Q5, P6, P7⟩⟩ :=
    so3_products m.m00 m.m01 m.m02 m.m10 m.m11 m.m12 m.m20 m.m21 m.m22
      R0 R1 R2 D01 D02 D12 DET
  have hX : (0 : ℝ) < m.m00 + m.m11 + m.m22 + 1 := by linarith
  have hr : 0 < Real.sqrt (m.m00 + m.m11 + m.m22 + 1) := Real.sqrt_pos.mpr hX
  have hs : Real.sqrt (m.m00 + m.m11 + m.m22 + 1) ≠ 0 := ne_of_gt hr
  have hr2 : Real.sqrt (m.m00 + m.m11 + m.m22 + 1) ^ 2 = m.m00 + m.m11 + m.m22 + 1 :=
    Real.sq_sqrt hX.le
  have key := quat_build m (m.m00 + m.m11 + m.m22 + 1) (m.m21 - m.m12)
    (m.m02 - m.m20) (m.m10 - m.m01) (Real.sqrt (m.m00 + m.m11 + m.m22 + 1))
    (m.m00 + m.m11 + m.m22 + 1) hr hr2
    (by linear_combination SQ1 + SQ2 + SQ3)
    (by linear_combination SQ1 - SQ2 - SQ3)
    (by linear_combination 2 * P1)
    (by linear_combination 2 * P2)
    (by linear_combination 2 * P1)
    (by linear_combination (-1 : ℝ) * SQ1 + SQ2 - SQ3)
    (by linear_combination 2 * P3)
    (by linear_combination 2 * P2)
    (by linear_combination 2 * P3)
    (by linear_combination (-1 : ℝ) * SQ1 - SQ2 + SQ3)
  have hval : rot_to_quat m =
      ⟨(m.m00 + m.m11 + m.m22 + 1) / (2 * Real.sqrt (m.m00 + m.m11 + m.m22 + 1)),
       (m.m21 - m.m12) / (2 * Real.sqrt (m.m00 + m.m11 + m.m22 + 1)),
       (m.m02 - m.m20) / (2 * Real.sqrt (m.m00 + m.m11 + m.m22 + 1)),
       (m.m10 - m.m01) / (2 * Real.sqrt (m.m00 + m.m11 + m.m22 + 1))⟩ := by
    have hb : (⟨0.25 / (0.5 / Real.sqrt (m.m00 + m.m11 + m.m22 + 1)),
        (m.m21 - m.m12) * (0.5 / Real.sqrt (m.m00 + m.m11 + m.m22 + 1)),
        (m.m02 - m.m20) * (0.5 / Real.sqrt (m.m00 + m.m11 + m.m22 + 1)),
        (m.m10 - m.m01) * (0.5 / Real.sqrt (m.m00 + m.m11 + m.m22 + 1))⟩ : Quat) =
        ⟨(m.m00 + m.m11 + m.m22 + 1) / (2 * Real.sqrt (m.m00 + m.m11 + m.m22 + 1)),
         (m.m21 - m.m12) / (2 * Real.sqrt (m.m00 + m.m11 + m.m22 + 1)),
         (m.m02 - m.m20) / (2 * Real.sqrt (m.m00 + m.m11 + m.m22 + 1)),
         (m.m10 - m.m01) / (2 * Real.sqrt (m.m00 + m.m11 + m.m22 + 1))⟩ := by
      refine Quat.ext ?_ ?_ ?_ ?_
      · field_simp
        linear_combination (0.5 : ℝ) * hr2
      · field_simp
        ring
      · field_simp
        ring
      · field_simp
        ring
    simp only [rot_to_quat]
    rw [if_pos htr, hb, normalize_self key.1]
  rw [hval]
  exact key

/-- Branch 2 of the extraction (`trace <= 0`, `m00` strictly largest diagonal). -/
lemma rot_to_quat_branch2 (m : Mat3) (hm : isSO3 m)
    (htr : ¬ 0 < m.m00 + m.m11 + m.m22) (hc : m.m00 > m.m11 ∧ m.m00 > m.m22) :
    normSq (rot_to_quat m) = 1 ∧ quat_to_rot (rot_to_quat m) = m := by
  obtain ⟨R0, R1, R2, D01, D02, D12, DET⟩ := hm
  obtain ⟨SQ1, SQ2, SQ3, SQ4, SQ5, SQ6⟩ :=
    so3_squares m.m00 m.m01 m.m02 m.m10 m.m11 m.m12 m.m20 m.m21 m.m22
      R0 R1 R2 D01 D02 D12 DET
  obtain ⟨⟨P1, P2, P3⟩, ⟨Q1, Q2, Q3⟩, ⟨P4, Q4, P5⟩, ⟨Q5, P6, P7⟩⟩ :=
    so3_products m.m00 m.m01 m.m02 m.m10 m.m11 m.m12 m.m20 m.m21 m.m22
      R0 R1 R2 D01 D02 D12 DET
  have ha1 : m.m00 ≤ 1 := by
    nlinarith [sq_nonneg m.m01, sq_nonneg m.m02, sq_nonneg (m.m00 - 1)]
  have hX : (0 : ℝ) < 1 + m.m00 - m.m11 - m.m22 := by
    obtain ⟨h1, h2⟩ := hc
    linarith
  have hr : 0 < Real.sqrt (1 + m.m00 - m.m11 - m.m22) := Real.sqrt_pos.mpr hX
  have hs : Real.sqrt (1 + m.m00 - m.m11 - m.m22) ≠ 0 := ne_of_gt hr
  have hr2 : Real.sqrt (1 + m.m00 - m.m11 - m.m22) ^ 2 = 1 + m.m00 - m.m11 - m.m22 :=
    Real.sq_sqrt hX.le
  have key := quat_build m (m.m21 - m.m12) (1 + m.m00 - m.m11 - m.m22)
    (m.m01 + m.m10) (m.m02 + m.m20) (Real.sqrt (1 + m.m00 - m.m11 - m.m22))
    (1 + m.m00 - m.m11 - m.m22) hr hr2
    (by linear_combination SQ1 + SQ4 + SQ5)
    (by linear_combination SQ1 - SQ4 - SQ5)
    (by linear_combination (-2 : ℝ) * Q1)
    (by linear_combination 2 * Q2)
    (by linear_combination 2 * Q1)
    (by linear_combination SQ1 + SQ4 - SQ5)
    (by linear_combination 2 * Q3)
    (by linear_combination (-2 : ℝ) * Q2)
    (by linear_combination 2 * Q3)
    (by linear_combination SQ1 - SQ4 + SQ5)
  have hval : rot_to_quat m =
      ⟨(m.m21 - m.m12) / (2 * Real.sqrt (1 + m.m00 - m.m11 - m.m22)),
       (1 + m.m00 - m.m11 - m.m22) / (2 * Real.sqrt (1 + m.m00 - m.m11 - m.m22)),
       (m.m01 + m.m10) / (2 * Real.sqrt (1 + m.m00 - m.m11 - m.m22)),
       (m.m02 + m.m20) / (2 * Real.sqrt (1 + m.m00 - m.m11 - m.m22))⟩ := by
    have hb : (⟨(m.m21 - m.m12) / (2 * Real.sqrt (1 + m.m00 - m.m11 - m.m22)),
        0.25 * (2 * Real.sqrt (1 + m.m00 - m.m11 - m.m22)),
        (m.m01 + m.m10) / (2 * Real.sqrt (1 + m.m00 - m.m11 - m.m22)),
        (m.m02 + m.m20) / (2 * Real.sqrt (1 + m.m00 - m.m11 - m.m22))⟩ : Quat) =
        ⟨(m.m21 - m.m12) / (2 * Real.sqrt (1 + m.m00 - m.m11 - m.m22)),
         (1 + m.m00 - m.m11 - m.m22) / (2 * Real.sqrt (1 + m.m00 - m.m11 - m.m22)),
         (m.m01 + m.m10) / (2 * Real.sqrt (1 + m.m00 - m.m11 - m.m22)),
         (m.m02 + m.m20) / (2 * Real.sqrt (1 + m.m00 - m.m11 - m.m22))⟩ := by
      refine Quat.ext rfl ?_ rfl rfl
      field_simp
      linear_combination hr2
    simp only [rot_to_quat]
    rw [if_neg htr, if_pos hc, hb, normalize_self key.1]
  rw [hval]
  exact key

/-- Branch 3 of the extraction (`trace <= 0`, `m00` not strictly largest,
`m11 > m22`). -/
lemma rot_to_quat_branch3 (m : Mat3) (hm : isSO3 m)
    (htr : ¬ 0 < m.m00 + m.m11 + m.m22) (hnc2 : ¬ (m.m00 > m.m11 ∧ m.m00 > m.m22))
    (hc3 : m.m11 > m.m22) :
    normSq (rot_to_quat m) = 1 ∧ quat_to_rot (rot_to_quat m) = m := by
  obtain ⟨R0, R1, R2, D01, D02, D12, DET⟩ := hm
  obtain ⟨SQ1, SQ2, SQ3, SQ4, SQ5, SQ6⟩ :=
    so3_squares m.m00 m.m01 m.m02 m.m10 m.m11 m.m12 m.m20 m.m21 m.m22
      R0 R1 R2 D01 D02 D12 DET
  obtain ⟨⟨P1, P2, P3⟩, ⟨Q1, Q2, Q3⟩, ⟨P4, Q4, P5⟩, ⟨Q5, P6, P7⟩⟩ :=
    so3_products m.m00 m.m01 m.m02 m.m10 m.m11 m.m12 m.m20 m.m21 m.m22
      R0 R1 R2 D01 D02 D12 DET
  have he1 : m.m11 ≤ 1 := by
    nlinarith [sq_nonneg m.m10, sq_nonneg m.m12, sq_nonneg (m.m11 - 1)]
  have hX : (0 : ℝ) < 1 + m.m11 - m.m00 - m.m22 := by
    rcases not_and_or.mp hnc2 with h1 | h2
    · have : m.m00 ≤ m.m11 := not_lt.mp h1
      linarith
    · have : m.m00 ≤ m.m22 := not_lt.mp h2
      linarith
  have hr : 0 < Real.sqrt (1 + m.m11 - m.m00 - m.m22) := Real.sqrt_pos.mpr hX
  have hs : Real.sqrt (1 + m.m11 - m.m00 - m.m22) ≠ 0 := ne_of_gt hr
  have hr2 : Real.sqrt (1 + m.m11 - m.m00 - m.m22) ^ 2 = 1 + m.m11 - m.m00 - m.m22 :=
    Real.sq_sqrt hX.le
  have key := quat_build m (m.m02 - m.m20) (m.m01 + m.m10)
    (1 + m.m11 - m.m00 - m.m22) (m.m12 + m.m21) (Real.sqrt (1 + m.m11 - m.m00 - m.m22))
    (1 + m.m11 - m.m00 - m.m22) hr hr2
    (by linear_combination SQ2 + SQ4 + SQ6)
    (by linear_combination SQ2 + SQ4 - SQ6)
    (by linear_combination (-2 : ℝ) * P4)
    (by linear_combination 2 * Q4)
    (by linear_combination 2 * P4)
    (by linear_combination SQ2 - SQ4 - SQ6)
    (by linear_combination (-2 : ℝ) * P5)
    (by linear_combination 2 * Q4)
    (by linear_combination 2 * P5)
    (by linear_combination SQ2 - SQ4 + SQ6)
  have hval : rot_to_quat m =
      ⟨(m.m02 - m.m20) / (2 * Real.sqrt (1 + m.m11 - m.m00 - m.m22)),
       (m.m01 + m.m10) / (2 * Real.sqrt (1 + m.m11 - m.m00 - m.m22)),
       (1 + m.m11 - m.m00 - m.m22) / (2 * Real.sqrt (1 + m.m11 - m.m00 - m.m22)),
       (m.m12 + m.m21) / (2 * Real.sqrt (1 + m.m11 - m.m00 - m.m22))⟩ := by
    have hb : (⟨(m.m02 - m.m20) / (2 * Real.sqrt (1 + m.m11 - m.m00 - m.m22)),
        (m.m01 + m.m10) / (2 * Real.sqrt (1 + m.m11 - m.m00 - m.m22)),
        0.25 * (2 * Real.sqrt (1 + m.m11 - m.m00 - m.m22)),
        (m.m12 + m.m21) / (2 * Real.sqrt (1 + m.m11 - m.m00 - m.m22))⟩ : Quat) =
        ⟨(m.m02 - m.m20) / (2 * Real.sqrt (1 + m.m11 - m.m00 - m.m22)),
         (m.m01 + m.m10) / (2 * Real.sqrt (1 + m.m11 - m.m00 - m.m22)),
         (1 + m.m11 - m.m00 - m.m22) / (2 * Real.sqrt (1 + m.m11 - m.m00 - m.m22)),
         (m.m12 + m.m21) / (2 * Real.sqrt (1 + m.m11 - m.m00 - m.m22))⟩ := by
      refine Quat.ext rfl rfl ?_ rfl
      field_simp
      linear_combination hr2
    simp only [rot_to_quat]
    rw [if_neg htr, if_neg hnc2, if_pos hc3, hb, normalize_self key.1]
  rw [hval]
  exact key

/-- Branch 4 of the extraction (`trace <= 0`, neither `m00` nor `m11` wins). -/
lemma rot_to_quat_branch4 (m : Mat3) (hm : isSO3 m)
    (htr : ¬ 0 < m.m00 + m.m11 + m.m22) (hnc2 : ¬ (m.m00 > m.m11 ∧ m.m00 > m.m22))
    (hnc3 : ¬ m.m11 > m.m22) :
    normSq (rot_to_quat m) = 1 ∧ quat_to_rot (rot_to_quat m) = m := by
  obtain ⟨R0, R1, R2, D01, D02, D12, DET⟩ := hm
  obtain ⟨SQ1, SQ2, SQ3, SQ4, SQ5, SQ6⟩ :=
    so3_squares m.m00 m.m01 m.m02 m.m10 m.m11 m.m12 m.m20 m.m21 m.m22
      R0 R1 R2 D01 D02 D12 DET
  obtain ⟨⟨P1, P2, P3⟩, ⟨Q1, Q2, Q3⟩, ⟨P4, Q4, P5⟩, ⟨Q5, P6, P7⟩⟩ :=
    so3_products m.m00 m.m01 m.m02 m.m10 m.m11 m.m12 m.m20 m.m21 m.m22
      R0 R1 R2 D01 D02 D12 DET
  have hi1 : m.m22 ≤ 1 := by
    nlinarith [sq_nonneg m.m20, sq_nonneg m.m21, sq_nonneg (m.m22 - 1)]
  have htr2 : m.m00 + m.m11 + m.m22 ≤ 0 := not_lt.mp htr
  have hei : m.m11 ≤ m.m22 := not_lt.mp hnc3
  have hX : (0 : ℝ) < 1 + m.m22 - m.m00 - m.m11 := by
    by_contra hV
    push_neg at hV
    rcases not_and_or.mp hnc2 with h1 | h2
    · have hae : m.m00 ≤ m.m11 := not_lt.mp h1
      linarith
    · have hai : m.m00 ≤ m.m22 := not_lt.mp h2
      linarith
  have hr : 0 < Real.sqrt (1 + m.m22 - m.m00 - m.m11) := Real.sqrt_pos.mpr hX
  have hs : Real.sqrt (1 + m.m22 - m.m00 - m.m11) ≠ 0 := ne_of_gt hr
  have hr2 : Real.sqrt (1 + m.m22 - m.m00 - m.m11) ^ 2 = 1 + m.m22 - m.m00 - m.m11 :=
    Real.sq_sqrt hX.le
  have key := quat_build m (m.m10 - m.m01) (m.m02 + m.m20)
    (m.m12 + m.m21) (1 + m.m22 - m.m00 - m.m11) (Real.sqrt (1 + m.m22 - m.m00 - m.m11))
    (1 + m.m22 - m.m00 - m.m11) hr hr2
    (by linear_combination SQ3 + SQ5 + SQ6)
    (by linear_combination SQ3 + SQ5 - SQ6)
    (by linear_combination 2 * Q5)
    (by linear_combination 2 * P6)
    (by linear_combination 2 * Q5)
    (by linear_combination SQ3 - SQ5 + SQ6)
    (by linear_combination (-2 : ℝ) * P7)
    (by linear_combination (-2 : ℝ) * P6)
    (by linear_combination 2 * P7)
    (by linear_combination SQ3 - SQ5 - SQ6)
  have hval : rot_to_quat m =
      ⟨(m.m10 - m.m01) / (2 * Real.sqrt (1 + m.m22 - m.m00 - m.m11)),
       (m.m02 + m.m20) / (2 * Real.sqrt (1 + m.m22 - m.m00 - m.m11)),
       (m.m12 + m.m21) / (2 * Real.sqrt (1 + m.m22 - m.m00 - m.m11)),
       (1 + m.m22 - m.m00 - m.m11) / (2 * Real.sqrt (1 + m.m22 - m.m00 - m.m11))⟩ := by
    have hb : (⟨(m.m10 - m.m01) / (2 * Real.sqrt (1 + m.m22 - m.m00 - m.m11)),
        (m.m02 + m.m20) / (2 * Real.sqrt (1 + m.m22 - m.m00 - m.m11)),
        (m.m12 + m.m21) / (2 * Real.sqrt (1 + m.m22 - m.m00 - m.m11)),
        0.25 * (2 * Real.sqrt (1 + m.m22 - m.m00 - m.m11))⟩ : Quat) =
        ⟨(m.m10 - m.m01) / (2 * Real.sqrt (1 + m.m22 - m.m00 - m.m11)),
         (m.m02 + m.m20) / (2 * Real.sqrt (1 + m.m22 - m.m00 - m.m11)),
         (m.m12 + m.m21) / (2 * Real.sqrt (1 + m.m22 - m.m00 - m.m11)),
         (1 + m.m22 - m.m00 - m.m11) / (2 * Real.sqrt (1 + m.m22 - m.m00 - m.m11))⟩ := by
      refine Quat.ext rfl rfl rfl ?_
      field_simp
      linear_combination hr2
    simp only [rot_to_quat]
    rw [if_neg htr, if_neg hnc2, if_neg hnc3, hb, normalize_self key.1]
  rw [hval]
  exact key

/-- The full matrix-quaternion round trip: for a rotation matrix, the
extracted quaternion has unit square norm and reconstructs the matrix. -/
lemma so3_round_trip (m : Mat3) (hm : isSO3 m) :
    normSq (rot_to_quat m) = 1 ∧ quat_to_rot (rot_to_quat m) = m := by
  by_cases htr : 0 < m.m00 + m.m11 + m.m22
  · exact rot_to_quat_branch1 m hm htr
  by_cases hc2 : m.m00 > m.m11 ∧ m.m00 > m.m22
  · exact rot_to_quat_branch2 m hm htr hc2
  by_cases hc3 : m.m11 > m.m22
  · exact rot_to_quat_branch3 m hm htr hc2 hc3
  · exact rot_to_quat_branch4 m hm htr hc2 hc3

/- Quaternion dot-product and norm expansions used by the slerp proofs. -/

/-- Self dot product equals the square norm. -/
lemma qdot_self (q : Quat) : qdot q q = normSq q := by
  simp only [qdot, normSq]
  ring

/-- Dot product with a negated right argument. -/
lemma qdot_qneg_right (p q : Quat) : qdot p (qneg q) = -qdot p q := by
  simp only [qdot, qneg]
  ring

/-- Negation preserves the square norm. -/
lemma normSq_qneg (q : Quat) : normSq (qneg q) = normSq q := by
  simp only [normSq, qneg]
  ring

/-- Square norm of `q - s • p`. -/
lemma normSq_sub_smul (p q : Quat) (s : ℝ) :
    normSq (qsub q (qscale s p)) = normSq q - 2 * s * qdot p q + s ^ 2 * normSq p := by
  simp only [normSq, qsub, qscale, qdot]
  ring

/-- Square norm of the linear-interpolation fallback `p + t (q - p)`. -/
lemma normSq_lerp_expand (p q : Quat) (t : ℝ) :
    normSq (qadd p (qscale t (qsub q p))) =
      (1 - t) ^ 2 * normSq p + 2 * t * (1 - t) * qdot p q + t ^ 2 * normSq q := by
  simp only [normSq, qadd, qscale, qsub, qdot]
  ring

/-- Square norm of a two-term combination `al • p + be • q`. -/
lemma normSq_combo (al be : ℝ) (p q : Quat) :
    normSq (qadd (qscale al p) (qscale be q)) =
      al ^ 2 * normSq p + 2 * al * be * qdot p q + be ^ 2 * normSq q := by
  simp only [normSq, qadd, qscale, qdot]
  ring

/-- Dot product against a scalar quotient. -/
lemma qdot_qdiv_right (p q : Quat) (s : ℝ) : qdot p (qdiv q s) = qdot p q / s := by
  simp only [qdot, qdiv]
  ring

/-- Dot product against `q - s • p`. -/
lemma qdot_sub_smul (p q : Quat) (s : ℝ) :
    qdot p (qsub q (qscale s p)) = qdot p q - s * normSq p := by
  simp only [qdot, qsub, qscale, normSq]
  ring

/-- Slerp of a unit quaternion with itself is the identity at every `t`. -/
lemma slerp_core_self {a : Quat} (ha : normSq a = 1) (t : ℝ) :
    slerp_core a a t = a := by
  have hd : qdot a a = 1 := by rw [qdot_self, ha]
  simp only [slerp_core]
  rw [hd, if_neg (by norm_num : ¬ (1 : ℝ) < 0), if_neg (by norm_num : ¬ (1 : ℝ) < 0),
    if_pos (by norm_num : (0.9995 : ℝ) < 1)]
  have hr : qadd a (qscale t (qsub a a)) = a := by
    apply Quat.ext <;> simp [qadd, qscale, qsub]
  rw [hr, normalize_self ha]

/-- Slerp at `t = 0` returns the (already unit) first input. -/
lemma slerp_core_zero {a : Quat} (ha : normSq a = 1) (b : Quat) :
    slerp_core a b 0 = a := by
  simp only [slerp_core]
  set d := qdot a b with hddef
  set ba := if d < 0 then qneg b else b with hbadef
  set da := if d < 0 then -d else d with hdadef
  split_ifs with hth
  · have hr : qadd a (qscale 0 (qsub ba a)) = a := by
      apply Quat.ext <;> simp [qadd, qscale, qsub]
    rw [hr, normalize_self ha]
  · rw [mul_zero, Real.cos_zero, Real.sin_zero]
    apply Quat.ext <;> simp [qadd, qscale]

/-- Slerp at `t = 1` returns the hemisphere-aligned copy of the second input. -/
lemma slerp_core_one_aligned {a b : Quat} (ha : normSq a = 1) (hb : normSq b = 1) :
    slerp_core a b 1 = (if qdot a b < 0 then qneg b else b) := by
  simp only [slerp_core]
  set d := qdot a b with hddef
  set ba := if d < 0 then qneg b else b with hbadef
  set da := if d < 0 then -d else d with hdadef
  have hba : normSq ba = 1 := by
    rw [hbadef]
    split_ifs
    · rw [normSq_qneg]; exact hb
    · exact hb
  have hdot : qdot a ba = da := by
    rw [hbadef, hdadef]
    split_ifs
    · rw [qdot_qneg_right, hddef]
    · rw [hddef]
  have hda0 : 0 ≤ da := by
    rw [hdadef]
    split_ifs with h
    · linarith
    · exact not_lt.mp h
  split_ifs with hth
  · have hr : qadd a (qscale 1 (qsub ba a)) = ba := by
      apply Quat.ext <;> simp [qadd, qscale, qsub]
    rw [hr, normalize_self hba]
  · have hda1 : da ≤ 0.9995 := not_lt.mp hth
    have hmin : min da 1 = da := min_eq_left (by linarith)
    have hmax : max da (-1) = da := max_eq_left (by linarith)
    have hcos : Real.cos (Real.arccos da * 1) = da := by
      rw [mul_one]
      exact Real.cos_arccos (by linarith) (by linarith)
    have hsin : Real.sin (Real.arccos da * 1) = Real.sqrt (1 - da ^ 2) := by
      rw [mul_one]
      exact Real.sin_arccos da
    have hq2u : normSq (qsub ba (qscale da a)) = 1 - da ^ 2 := by
      rw [normSq_sub_smul, ha, hba, hdot]
      ring
    have hpos : (0 : ℝ) < 1 - da ^ 2 := by nlinarith
    have hsne : Real.sqrt (1 - da ^ 2) ≠ 0 :=
      ne_of_gt (Real.sqrt_pos.mpr hpos)
    have hnormq2u : qnorm (qsub ba (qscale da a)) = Real.sqrt (1 - da ^ 2) := by
      rw [qnorm, hq2u]
    rw [hmin, hmax, hcos, hsin, hnormq2u]
    have hsc : qscale (Real.sqrt (1 - da ^ 2))
        (qdiv (qsub ba (qscale da a)) (Real.sqrt (1 - da ^ 2))) = qsub ba (qscale da a) := by
      apply Quat.ext <;> (simp only [qscale, qdiv]; field_simp)
    rw [hsc]
    apply Quat.ext <;> simp [qadd, qscale, qsub]

/-- Slerp at `t = 1` returns the second input up to the hemisphere sign flip. -/
lemma slerp_core_one {a b : Quat} (ha : normSq a = 1) (hb : normSq b = 1) :
    slerp_core a b 1 = b ∨ slerp_core a b 1 = qneg b := by
  have h := slerp_core_one_aligned ha hb
  by_cases hd : qdot a b < 0
  · right; rwa [if_pos hd] at h
  · left; rwa [if_neg hd] at h

/-- Slerp of unit quaternions returns a unit quaternion for `t` in `[0,1]`. -/
lemma slerp_core_normSq {a b : Quat} (ha : normSq a = 1) (hb : normSq b = 1)
    {t : ℝ} (ht0 : 0 ≤ t) (ht1 : t ≤ 1) : normSq (slerp_core a b t) = 1 := by
  simp only [slerp_core]
  set d := qdot a b with hddef
  set ba := if d < 0 then qneg b else b with hbadef
  set da := if d < 0 then -d else d with hdadef
  have hba : normSq ba = 1 := by
    rw [hbadef]
    split_ifs
    · rw [normSq_qneg]; exact hb
    · exact hb
  have hdot : qdot a ba = da := by
    rw [hbadef, hdadef]
    split_ifs
    · rw [qdot_qneg_right, hddef]
    · rw [hddef]
  have hda0 : 0 ≤ da := by
    rw [hdadef]
    split_ifs with h
    · linarith
    · exact not_lt.mp h
  split_ifs with hth
  · apply normSq_normalize
    rw [normSq_lerp_expand, ha, hba, hdot]
    nlinarith [sq_nonneg (1 - 2 * t), mul_nonneg (mul_nonneg ht0 (by linarith : (0:ℝ) ≤ 1 - t)) hda0]
  · have hda1 : da ≤ 0.9995 := not_lt.mp hth
    have hq2u : normSq (qsub ba (qscale da a)) = 1 - da ^ 2 := by
      rw [normSq_sub_smul, ha, hba, hdot]
      ring
    have hpos : (0 : ℝ) < 1 - da ^ 2 := by nlinarith
    have hq2 : normSq (qdiv (qsub ba (qscale da a)) (qnorm (qsub ba (qscale da a)))) = 1 :=
      normSq_normalize (by rw [hq2u]; exact hpos)
    have hdotq2 : qdot a (qdiv (qsub ba (qscale da a)) (qnorm (qsub ba (qscale da a)))) = 0 := by
      rw [qdot_qdiv_right, qdot_sub_smul, ha, hdot]
      simp
    rw [normSq_combo, ha, hq2, hdotq2]
    have := Real.sin_sq_add_cos_sq (Real.arccos (max (min da 1) (-1)) * t)
    linear_combination this

/-- `quat_slerp q q t = q` for unit `q`. -/
lemma slerp_self {q : Quat} (h : normSq q = 1) (t : ℝ) : quat_slerp q q t = q := by
  simp only [quat_slerp]
  rw [normalize_self h]
  exact slerp_core_self h t

/-- `quat_slerp q0 q1 0 = q0` for unit `q0`. -/
lemma slerp_zero {q0 q1 : Quat} (h0 : normSq q0 = 1) : quat_slerp q0 q1 0 = q0 := by
  simp only [quat_slerp]
  rw [normalize_self h0]
  exact slerp_core_zero h0 _

/-- `quat_slerp q0 q1 1` is `q1` up to sign, for unit inputs. -/
lemma slerp_one {q0 q1 : Quat} (h0 : normSq q0 = 1) (h1 : normSq q1 = 1) :
    quat_slerp q0 q1 1 = q1 ∨ quat_slerp q0 q1 1 = qneg q1 := by
  simp only [quat_slerp]
  rw [normalize_self h0, normalize_self h1]
  exact slerp_core_one h0 h1

/-- Slerp of nonzero quaternions at `t` in `[0,1]` has unit square norm. -/
lemma slerp_normSq {q0 q1 : Quat} {t : ℝ} (h0 : q0 ≠ qzero) (h1 : q1 ≠ qzero)
    (ht0 : 0 ≤ t) (ht1 : t ≤ 1) : normSq (quat_slerp q0 q1 t) = 1 := by
  simp only [quat_slerp]
  exact slerp_core_normSq (normSq_normalize (normSq_pos_of_ne h0))
    (normSq_normalize (normSq_pos_of_ne h1)) ht0 ht1

/- Index-mapper arithmetic. -/

/-- The continuous position is never negative. -/
lemma posIndex_nonneg (N M k : ℕ) : 0 ≤ posIndex N M k := by
  unfold posIndex
  positivity

/-- The neighbor index is never negative, so the first-item branch is dead. -/
lemma nbrIndex_nonneg (N M k : ℕ) : 0 ≤ nbrIndex N M k :=
  Int.floor_nonneg.mpr (posIndex_nonneg N M k)

/-- With target count `M = N` the continuous position is the index itself. -/
lemma posIndex_self (N k : ℕ) (hN : N ≠ 0) : posIndex N N k = k := by
  unfold posIndex
  rw [mul_div_assoc, div_self (by exact_mod_cast hN), mul_one]

/-- With target count `M = N` the neighbor index is the index itself. -/
lemma nbrIndex_self (N k : ℕ) (hN : N ≠ 0) : nbrIndex N N k = k := by
  unfold nbrIndex
  rw [posIndex_self N k hN]
  exact Int.floor_natCast k

/-- With target count `M = N` the weight vanishes. -/
lemma weight_self (N k : ℕ) (hN : N ≠ 0) : weight N N k = 0 := by
  unfold weight
  rw [posIndex_self N k hN, nbrIndex_self N k hN]
  push_cast
  ring

/- List-level structure of the two resampling loops. -/

/-- Element `k` of the pose output list. -/
lemma resample_poses_list_get (poses : List Mat4) (M k : ℕ) (hk : k < M) :
    (resample_poses_list poses M).get? k = some (resampleItemP poses M k) := by
  unfold resample_poses_list
  rw [List.get?_map, List.get?_range hk]
  rfl

/-- The pose output list has length `M`. -/
lemma resample_poses_list_length (poses : List Mat4) (M : ℕ) :
    (resample_poses_list poses M).length = M := by
  unfold resample_poses_list
  rw [List.length_map, List.length_range]

/-- On a nonempty input the resampler succeeds with the mapped list. -/
lemma resample_poses_eq (poses : List Mat4) (M : ℕ) (h : poses.length ≠ 0) :
    resample_poses poses M = some (resample_poses_list poses M) := by
  unfold resample_poses
  rw [if_neg h]

/-- Boundary branch of the pose loop: at `i >= N - 1` the last pose is copied. -/
lemma resampleItemP_boundary (poses : List Mat4) (M k : ℕ)
    (hge : (poses.length : ℤ) - 1 ≤ nbrIndex poses.length M k) :
    resampleItemP poses M k = poses.getD (poses.length - 1) mat4Default := by
  unfold resampleItemP
  rw [if_neg (not_lt.mpr (nbrIndex_nonneg _ _ _)), if_pos hge]

/-- Interior branch of the pose loop: at `0 <= i < N - 1` the neighbor pair is
interpolated with the computed weight. -/
lemma resampleItemP_interior (poses : List Mat4) (M k : ℕ)
    (hlt : nbrIndex poses.length M k < (poses.length : ℤ) - 1) :
    resampleItemP poses M k =
      interpPose poses (nbrIndex poses.length M k).toNat ((weight poses.length M k : ℚ) : ℝ) := by
  unfold resampleItemP
  rw [if_neg (not_lt.mpr (nbrIndex_nonneg _ _ _)), if_neg (not_le.mpr hlt)]

/-- Element `k` of the frame output list. -/
lemma resample_frames_core_get (frames : List Frame) (M k : ℕ) (hk : k < M) :
    (resample_frames_core frames M).get? k = some (resampleItemF frames M k) := by
  unfold resample_frames_core
  rw [List.get?_map, List.get?_range hk]
  rfl

/-- The frame output list has length `M`. -/
lemma resample_frames_core_length (frames : List Frame) (M : ℕ) :
    (resample_frames_core frames M).length = M := by
  unfold resample_frames_core
  rw [List.length_map, List.length_range]

/-- Boundary branch of the frame loop. -/
lemma resampleItemF_boundary (frames : List Frame) (M k : ℕ)
    (hge : (frames.length : ℤ) - 1 ≤ nbrIndex frames.length M k) :
    resampleItemF frames M k = frames.getD (frames.length - 1) frameDefault := by
  unfold resampleItemF
  rw [if_neg (not_lt.mpr (nbrIndex_nonneg _ _ _)), if_pos hge]

/-- Interior branch of the frame loop. -/
lemma resampleItemF_interior (frames : List Frame) (M k : ℕ)
    (hlt : nbrIndex frames.length M k < (frames.length : ℤ) - 1) :
    resampleItemF frames M k =
      addWeighted (frames.getD (nbrIndex frames.length M k).toNat frameDefault)
        (1 - ((weight frames.length M k : ℚ) : ℝ))
        (frames.getD ((nbrIndex frames.length M k).toNat + 1) frameDefault)
        ((weight frames.length M k : ℚ) : ℝ) 0 := by
  unfold resampleItemF
  rw [if_neg (not_lt.mpr (nbrIndex_nonneg _ _ _)), if_neg (not_le.mpr hlt)]

/-- Interpolating a valid pose pair with weight `0` reproduces the left pose. -/
lemma interpPose_zero (poses : List Mat4) (hvalid : ∀ p ∈ poses, isPose p)
    (j : ℕ) (hj : j < poses.length) :
    interpPose poses j 0 = poses.getD j mat4Default := by
  simp only [interpPose]
  have hmem : poses.getD j mat4Default ∈ poses := by
    rw [List.getD_eq_get poses mat4Default hj]
    exact List.get_mem poses j hj
  obtain ⟨hso3, h30, h31, h32, h33⟩ := hvalid _ hmem
  obtain ⟨hq, hrt⟩ := so3_round_trip _ hso3
  rw [slerp_zero hq, hrt]
  have hv : vlerp (mat4_to_rt (poses.getD j mat4Default)).2
      (mat4_to_rt (poses.getD (j + 1) mat4Default)).2 0 =
      (mat4_to_rt (poses.getD j mat4Default)).2 := by
    apply Vec3.ext <;> simp [vlerp]
  rw [hv]
  apply Mat4.ext <;> simp only [rt_to_mat4, mat4_to_rt, h30, h31, h32, h33]

/-- Identity resampling of valid poses: item `k` of the output equals item `k`
of the input. -/
lemma resampleItemP_id (poses : List Mat4) (hvalid : ∀ p ∈ poses, isPose p)
    (k : ℕ) (hk : k < poses.length) :
    resampleItemP poses poses.length k = poses.getD k mat4Default := by
  have hN : poses.length ≠ 0 := by omega
  have hnbr : nbrIndex poses.length poses.length k = k := nbrIndex_self _ _ hN
  by_cases hbound : (poses.length : ℤ) - 1 ≤ (k : ℤ)
  · have hkN : k = poses.length - 1 := by omega
    rw [resampleItemP_boundary _ _ _ (by rw [hnbr]; exact hbound), hkN]
  · have hlt : nbrIndex poses.length poses.length k < (poses.length : ℤ) - 1 := by
      rw [hnbr]
      omega
    rw [resampleItemP_interior _ _ _ hlt, hnbr]
    have hw : weight poses.length poses.length k = 0 := weight_self _ _ hN
    rw [hw, Rat.cast_zero, Int.toNat_natCast]
    exact interpPose_zero poses hvalid k hk

/- Dictionary-update lemmas for the document field-effect claim. -/

/-- Appending a fresh binding does not affect reads of other keys. -/
lemma getKey_append_ne (d : Doc) (k k' : String) (v : JVal) (hne : k' ≠ k) :
    getKey (d ++ [(k, v)]) k' = getKey d k' := by
  induction d with
  | nil => simp [getKey, Ne.symm hne]
  | cons hd tl ih =>
    simp only [List.cons_append, getKey]
    split_ifs
    · rfl
    · exact ih

/-- Appending a fresh binding makes its key readable. -/
lemma getKey_append_self (d : Doc) (k : String) (v : JVal) (h : getKey d k = none) :
    getKey (d ++ [(k, v)]) k = some v := by
  induction d with
  | nil => simp [getKey]
  | cons hd tl ih =>
    by_cases hk : hd.1 = k
    · exfalso
      rw [getKey, if_pos hk] at h
      exact Option.some_ne_none _ h
    · rw [List.cons_append, getKey, if_neg hk]
      rw [getKey, if_neg hk] at h
      exact ih h

/-- Overwriting a binding in place does not affect reads of other keys. -/
lemma getKey_replace_ne (d : Doc) (k k' : String) (v : JVal) (hne : k' ≠ k) :
    getKey (d.map (fun kv => if kv.1 = k then (k, v) else kv)) k' = getKey d k' := by
  induction d with
  | nil => rfl
  | cons hd tl ih =>
    by_cases hk : hd.1 = k
    · simp only [List.map_cons, if_pos hk, getKey]
      rw [if_neg (Ne.symm hne), if_neg (by rw [hk]; exact Ne.symm hne)]
      exact ih
    · simp only [List.map_cons, if_neg hk, getKey]
      split_ifs
      · rfl
      · exact ih

/-- Overwriting a present binding in place makes the new value readable. -/
lemma getKey_replace_self (d : Doc) (k : String) (v : JVal) (h : (getKey d k).isSome) :
    getKey (d.map (fun kv => if kv.1 = k then (k, v) else kv)) k = some v := by
  induction d with
  | nil => simp [getKey] at h
  | cons hd tl ih =>
    by_cases hk : hd.1 = k
    · simp only [List.map_cons, if_pos hk, getKey, eq_self_iff_true, if_true]
    · simp only [List.map_cons, if_neg hk, getKey, if_neg hk]
      apply ih
      simpa [getKey, hk] using h

/-- Reading the assigned key after a dict assignment yields the new value. -/
lemma getKey_setKey_self (d : Doc) (k : String) (v : JVal) :
    getKey (setKey d k v) k = some v := by
  unfold setKey
  split_ifs with h
  · exact getKey_replace_self d k v h
  · exact getKey_append_self d k v (Option.not_isSome_iff_eq_none.mp h)

/-- Reading any other key after a dict assignment is unchanged. -/
lemma getKey_setKey_ne (d : Doc) (k k' : String) (v : JVal) (hne : k' ≠ k) :
    getKey (setKey d k v) k' = getKey d k' := by
  unfold setKey
  split_ifs with h
  · exact getKey_replace_ne d k k' v hne
  · exact getKey_append_ne d k k' v hne

/- Concrete values used by the witnesses. -/

/-- The 3x3 identity rotation. -/
noncomputable def idRot3 : Mat3 := ⟨1, 0, 0, 0, 1, 0, 0, 0, 1⟩

/-- The 4x4 identity pose. -/
noncomputable def idMat4 : Mat4 := ⟨1, 0, 0, 0, 0, 1, 0, 0, 0, 0, 1, 0, 0, 0, 0, 1⟩

/-- The identity pose is a valid pose. -/
lemma idMat4_isPose : isPose idMat4 := by
  refine ⟨?_, rfl, rfl, rfl, rfl⟩
  norm_num [isSO3, mat4_to_rt, idMat4]

/-- The weight at target index `0` vanishes. -/
lemma weight_zero_left (N M : ℕ) : weight N M 0 = 0 := by
  unfold weight nbrIndex posIndex
  norm_num

/-- The neighbor index at target index `0` is `0`. -/
lemma nbrIndex_zero_left (N M : ℕ) : nbrIndex N M 0 = 0 := by
  unfold nbrIndex posIndex
  norm_num

/- The ten claims. -/

/-- C1: for every source length `N >= 1`, target length `M >= 1` and target
index `k < M`, both resamplers use the mapping `p = k*N/M`, `i = floor p`,
`alpha = p - i`; when `i >= N-1` the output at `k` is the last source item
unchanged, and when `0 <= i < N-1` it is the interpolation of the neighbor
pair `(i, i+1)` with weight `alpha`. -/
theorem C1_resampler_index_and_branches :
    (∀ (poses : List Mat4) (M k : ℕ), 1 ≤ poses.length → 1 ≤ M → k < M →
      resample_poses poses M = some (resample_poses_list poses M) ∧
      ((poses.length : ℤ) - 1 ≤ nbrIndex poses.length M k →
        (resample_poses_list poses M).get? k =
          some (poses.getD (poses.length - 1) mat4Default)) ∧
      (0 ≤ nbrIndex poses.length M k ∧ nbrIndex poses.length M k < (poses.length : ℤ) - 1 →
        (resample_poses_list poses M).get? k =
          some (interpPose poses (nbrIndex poses.length M k).toNat
            ((weight poses.length M k : ℚ) : ℝ)))) ∧
    (∀ (frames : List Frame) (M k : ℕ), 1 ≤ frames.length → 1 ≤ M → k < M →
      ((frames.length : ℤ) - 1 ≤ nbrIndex frames.length M k →
        (resample_frames_core frames M).get? k =
          some (frames.getD (frames.length - 1) frameDefault)) ∧
      (0 ≤ nbrIndex frames.length M k ∧ nbrIndex frames.length M k < (frames.length : ℤ) - 1 →
        (resample_frames_core frames M).get? k =
          some (addWeighted (frames.getD (nbrIndex frames.length M k).toNat frameDefault)
            (1 - ((weight frames.length M k : ℚ) : ℝ))
            (frames.getD ((nbrIndex frames.length M k).toNat + 1) frameDefault)
            ((weight frames.length M k : ℚ) : ℝ) 0))) := by
  constructor
  · intro poses M k hN hM hk
    refine ⟨resample_poses_eq _ _ (by omega), ?_, ?_⟩
    · intro hge
      rw [resample_poses_list_get _ _ _ hk, resampleItemP_boundary _ _ _ hge]
    · rintro ⟨-, hlt⟩
      rw [resample_poses_list_get _ _ _ hk, resampleItemP_interior _ _ _ hlt]
  · intro frames M k hN hM hk
    refine ⟨?_, ?_⟩
    · intro hge
      rw [resample_frames_core_get _ _ _ hk, resampleItemF_boundary _ _ _ hge]
    · rintro ⟨-, hlt⟩
      rw [resample_frames_core_get _ _ _ hk, resampleItemF_interior _ _ _ hlt]

/-- Witness for C1 at `N = 2`, `M = 3`, `k = 2`: the mapped index is
`i = floor(4/3) = 1 >= N - 1`, so the boundary branch copies the last pose. -/
theorem C1_witness :
    (1 ≤ ([mat4Default, mat4Default] : List Mat4).length ∧ 1 ≤ 3 ∧ 2 < 3 ∧
      ((([mat4Default, mat4Default] : List Mat4).length : ℤ) - 1 ≤
        nbrIndex ([mat4Default, mat4Default] : List Mat4).length 3 2)) ∧
    (resample_poses_list [mat4Default, mat4Default] 3).get? 2 =
      some (([mat4Default, mat4Default] : List Mat4).getD
        (([mat4Default, mat4Default] : List Mat4).length - 1) mat4Default) := by
  have hn : nbrIndex 2 3 2 = 1 := by
    unfold nbrIndex posIndex
    norm_num
  have hlen : ([mat4Default, mat4Default] : List Mat4).length = 2 := by norm_num
  have hge : ((([mat4Default, mat4Default] : List Mat4).length : ℤ) - 1 ≤
      nbrIndex ([mat4Default, mat4Default] : List Mat4).length 3 2) := by
    rw [hlen, hn]
    norm_num
  refine ⟨⟨by norm_num, by norm_num, by norm_num, hge⟩, ?_⟩
  exact ((C1_resampler_index_and_branches.1 [mat4Default, mat4Default] 3 2
    (by norm_num) (by norm_num) (by norm_num)).2.1 hge)

/-- C2: for every `N >= 1` and `M >= 1`, resampling `N` items to target count
`M` returns exactly `M` items, for poses and for frames. -/
theorem C2_resampler_output_length :
    (∀ (poses : List Mat4) (M : ℕ), 1 ≤ poses.length → 1 ≤ M →
      resample_poses poses M = some (resample_poses_list poses M) ∧
      (resample_poses_list poses M).length = M) ∧
    (∀ (frames : List Frame) (M : ℕ), 1 ≤ frames.length → 1 ≤ M →
      (resample_frames_core frames M).length = M) := by
  constructor
  · intro poses M hN hM
    exact ⟨resample_poses_eq _ _ (by omega), resample_poses_list_length _ _⟩
  · intro frames M hN hM
    exact resample_frames_core_length _ _

/-- Witness for C2 at one pose and one frame resampled to two items. -/
theorem C2_witness :
    (1 ≤ ([mat4Default] : List Mat4).length ∧ (1 : ℕ) ≤ 2) ∧
    (resample_poses [mat4Default] 2 = some (resample_poses_list [mat4Default] 2) ∧
      (resample_poses_list [mat4Default] 2).length = 2) ∧
    (resample_frames_core [frameDefault] 2).length = 2 :=
  ⟨⟨by norm_num, by norm_num⟩,
   C2_resampler_output_length.1 [mat4Default] 2 (by norm_num) (by norm_num),
   C2_resampler_output_length.2 [frameDefault] 2 (by norm_num) (by norm_num)⟩

/-- C3: resampling a nonempty sequence of valid poses with target count
`M = N` reproduces every source item (weight `0` at interior hits, boundary
copy at the last index). -/
theorem C3_identity_resampling (poses : List Mat4) (hvalid : ∀ p ∈ poses, isPose p)
    (hN : 1 ≤ poses.length) :
    resample_poses poses poses.length = some (resample_poses_list poses poses.length) ∧
    ∀ k, k < poses.length →
      (resample_poses_list poses poses.length).get? k = poses.get? k := by
  refine ⟨resample_poses_eq _ _ (by omega), ?_⟩
  intro k hk
  rw [resample_poses_list_get _ _ _ hk, resampleItemP_id poses hvalid k hk,
    List.get?_eq_get hk, List.getD_eq_get poses mat4Default hk]

/-- Witness for C3: the singleton identity-pose sequence is reproduced. -/
theorem C3_witness :
    isPose idMat4 ∧ 1 ≤ ([idMat4] : List Mat4).length ∧
    (resample_poses_list [idMat4] ([idMat4] : List Mat4).length).get? 0 =
      ([idMat4] : List Mat4).get? 0 := by
  have hv : ∀ p ∈ ([idMat4] : List Mat4), isPose p := by
    intro p hp
    rw [List.mem_singleton] at hp
    rw [hp]
    exact idMat4_isPose
  exact ⟨idMat4_isPose, by norm_num,
    (C3_identity_resampling [idMat4] hv (by norm_num)).2 0 (by norm_num)⟩

/-- C4: the frame resampler derives `fps_new = M / T` with `T = N / fps_orig`
for positive `fps_orig` and `T = N` otherwise, so the output spans the source
duration; in particular `N = 10`, `fps = 30`, `M = 5` gives exactly `15`. -/
theorem C4_fps_preserves_duration :
    (∀ (N M : ℕ) (fps : ℚ), 1 ≤ N → 0 < fps →
      fps_new N M fps = (M : ℚ) / ((N : ℚ) / fps)) ∧
    (∀ (N M : ℕ) (fps : ℚ), 1 ≤ N → fps ≤ 0 →
      fps_new N M fps = (M : ℚ) / (N : ℚ)) ∧
    (∀ (N M : ℕ) (fps : ℚ), 1 ≤ N → 1 ≤ M → 0 < fps →
      (M : ℚ) / fps_new N M fps = (N : ℚ) / fps) ∧
    fps_new 10 5 30 = 15 := by
  have hmain : ∀ (N M : ℕ) (fps : ℚ), 1 ≤ N → 0 < fps →
      fps_new N M fps = (M : ℚ) / ((N : ℚ) / fps) := by
    intro N M fps hN hf
    unfold fps_new duration
    rw [if_pos hf, if_pos (div_pos (by exact_mod_cast hN) hf)]
  refine ⟨hmain, ?_, ?_, ?_⟩
  · intro N M fps hN hf
    unfold fps_new duration
    rw [if_neg (not_lt.mpr hf), if_pos (by exact_mod_cast hN)]
  · intro N M fps hN hM hf
    rw [hmain N M fps hN hf]
    have hN0 : ((N : ℚ)) ≠ 0 := by
      have : (0 : ℚ) < (N : ℚ) := by exact_mod_cast hN
      exact ne_of_gt this
    have hM0 : ((M : ℚ)) ≠ 0 := by
      have : (0 : ℚ) < (M : ℚ) := by exact_mod_cast hM
      exact ne_of_gt this
    field_simp
    ring
  · unfold fps_new duration
    norm_num

/-- Witness for C4 at the spec's scenario `N = 10`, `fps = 30`, `M = 5`. -/
theorem C4_witness :
    ((1 : ℕ) ≤ 10 ∧ (0 : ℚ) < 30) ∧ fps_new 10 5 30 = ((5 : ℕ) : ℚ) / (((10 : ℕ) : ℚ) / 30) :=
  ⟨⟨by norm_num, by norm_num⟩,
   C4_fps_preserves_duration.1 10 5 30 (by norm_num) (by norm_num)⟩

/-- C5: for unit quaternions and `t` in `[0,1]`: `Slerp(q,q,t) = q`,
`Slerp(q0,q1,0) = q0`, and `Slerp(q0,q1,1) = q1` up to sign. -/
theorem C5_slerp_endpoints (q q0 q1 : Quat) (t : ℝ)
    (hq : normSq q = 1) (h0 : normSq q0 = 1) (h1 : normSq q1 = 1)
    (ht0 : 0 ≤ t) (ht1 : t ≤ 1) :
    quat_slerp q q t = q ∧ quat_slerp q0 q1 0 = q0 ∧
    (quat_slerp q0 q1 1 = q1 ∨ quat_slerp q0 q1 1 = qneg q1) :=
  ⟨slerp_self hq t, slerp_zero h0, slerp_one h0 h1⟩

/-- Witness for C5 on concrete unit quaternions at `t = 1/2`. -/
theorem C5_witness :
    (normSq (⟨1, 0, 0, 0⟩ : Quat) = 1 ∧ normSq (⟨0, 1, 0, 0⟩ : Quat) = 1 ∧
      normSq (⟨0, 0, 1, 0⟩ : Quat) = 1 ∧ (0 : ℝ) ≤ 1 / 2 ∧ (1 / 2 : ℝ) ≤ 1) ∧
    (quat_slerp ⟨1, 0, 0, 0⟩ ⟨1, 0, 0, 0⟩ (1 / 2) = ⟨1, 0, 0, 0⟩ ∧
     quat_slerp ⟨0, 1, 0, 0⟩ ⟨0, 0, 1, 0⟩ 0 = ⟨0, 1, 0, 0⟩ ∧
     (quat_slerp ⟨0, 1, 0, 0⟩ ⟨0, 0, 1, 0⟩ 1 = ⟨0, 0, 1, 0⟩ ∨
      quat_slerp ⟨0, 1, 0, 0⟩ ⟨0, 0, 1, 0⟩ 1 = qneg ⟨0, 0, 1, 0⟩)) := by
  have hq : normSq (⟨1, 0, 0, 0⟩ : Quat) = 1 := by norm_num [normSq]
  have h0 : normSq (⟨0, 1, 0, 0⟩ : Quat) = 1 := by norm_num [normSq]
  have h1 : normSq (⟨0, 0, 1, 0⟩ : Quat) = 1 := by norm_num [normSq]
  exact ⟨⟨hq, h0, h1, by norm_num, by norm_num⟩,
    C5_slerp_endpoints ⟨1, 0, 0, 0⟩ ⟨0, 1, 0, 0⟩ ⟨0, 0, 1, 0⟩ (1 / 2) hq h0 h1
      (by norm_num) (by norm_num)⟩

/-- C6: for every orthonormal rotation matrix with determinant `+1`, converting
to a quaternion and back reproduces the matrix (exactly, in the real-arithmetic
model, hence within any relative tolerance). -/
theorem C6_rotation_quaternion_round_trip (m : Mat3) (hm : isSO3 m) :
    quat_to_rot (rot_to_quat m) = m :=
  (so3_round_trip m hm).2

/-- Witness for C6 on the identity rotation. -/
theorem C6_witness : isSO3 idRot3 ∧ quat_to_rot (rot_to_quat idRot3) = idRot3 := by
  have h : isSO3 idRot3 := by norm_num [isSO3, idRot3]
  exact ⟨h, C6_rotation_quaternion_round_trip idRot3 h⟩

/-- C7: for nonzero input quaternions and `t` in `[0,1]`, the slerp output has
unit norm, on both the linear fallback and the spherical branch. -/
theorem C7_slerp_unit_norm (q0 q1 : Quat) (t : ℝ) (h0 : q0 ≠ qzero) (h1 : q1 ≠ qzero)
    (ht0 : 0 ≤ t) (ht1 : t ≤ 1) :
    normSq (quat_slerp q0 q1 t) = 1 ∧ qnorm (quat_slerp q0 q1 t) = 1 := by
  have h := slerp_normSq h0 h1 ht0 ht1
  exact ⟨h, qnorm_eq_one h⟩

/-- Witness for C7 on two concrete nonzero quaternions at `t = 0`. -/
theorem C7_witness :
    ((⟨1, 0, 0, 0⟩ : Quat) ≠ qzero ∧ (⟨0, 1, 0, 0⟩ : Quat) ≠ qzero ∧
      (0 : ℝ) ≤ 0 ∧ (0 : ℝ) ≤ 1) ∧
    normSq (quat_slerp ⟨1, 0, 0, 0⟩ ⟨0, 1, 0, 0⟩ 0) = 1 ∧
    qnorm (quat_slerp ⟨1, 0, 0, 0⟩ ⟨0, 1, 0, 0⟩ 0) = 1 := by
  have h0 : (⟨1, 0, 0, 0⟩ : Quat) ≠ qzero := by simp [qzero]
  have h1 : (⟨0, 1, 0, 0⟩ : Quat) ≠ qzero := by simp [qzero]
  exact ⟨⟨h0, h1, le_refl 0, by norm_num⟩,
    C7_slerp_unit_norm ⟨1, 0, 0, 0⟩ ⟨0, 1, 0, 0⟩ 0 h0 h1 (le_refl 0) (by norm_num)⟩

/-- C8 counterexample: two distinct error categories of the video tool
(decoder open failure and empty input) share the same exit status `1`, so the
exit statuses are not distinct per category as the claim states. -/
theorem C8_counterexample :
    videoToolRun true true [] 1 5 true = VideoRun.err ErrCat.emptyInput 1 ∧
    videoToolRun true false [] 1 5 true = VideoRun.err ErrCat.decoderOpenFailure 1 ∧
    ErrCat.emptyInput ≠ ErrCat.decoderOpenFailure := by
  refine ⟨rfl, rfl, ?_⟩
  intro h
  cases h

/-- C8 amended: each category is surfaced once and is terminal; the pose tool
gives statuses 2/3/4 to input-not-found, missing-field and invalid-target-count
while an empty input escapes as an uncaught exception with status 1; the video
tool gives status 2 to input-not-found and one shared status 1 (with message)
to decoder-open-failure, empty-input, invalid-target-count and
encoder-open-failure. -/
theorem C8_exit_status_table :
    (∀ (k : Bool) (m : ℤ) (ps : List Mat4),
      poseToolRun false k m ps = PoseRun.err ErrCat.inputNotFound 2) ∧
    (∀ (m : ℤ) (ps : List Mat4),
      poseToolRun true false m ps = PoseRun.err ErrCat.missingField 3) ∧
    (∀ (m : ℤ) (ps : List Mat4), m ≤ 0 →
      poseToolRun true true m ps = PoseRun.err ErrCat.invalidTargetCount 4) ∧
    (∀ m : ℤ, 0 < m → poseToolRun true true m [] = PoseRun.err ErrCat.emptyInput 1) ∧
    (∀ (dec : Bool) (fr : List Frame) (fps : ℚ) (m : ℤ) (enc : Bool),
      videoToolRun false dec fr fps m enc = VideoRun.err ErrCat.inputNotFound 2) ∧
    (∀ (fr : List Frame) (fps : ℚ) (m : ℤ) (enc : Bool),
      videoToolRun true false fr fps m enc = VideoRun.err ErrCat.decoderOpenFailure 1) ∧
    (∀ (fps : ℚ) (m : ℤ) (enc : Bool),
      videoToolRun true true [] fps m enc = VideoRun.err ErrCat.emptyInput 1) ∧
    (∀ (fr : List Frame) (fps : ℚ) (m : ℤ) (enc : Bool), 1 ≤ fr.length → m ≤ 0 →
      videoToolRun true true fr fps m enc = VideoRun.err ErrCat.invalidTargetCount 1) ∧
    (∀ (fr : List Frame) (fps : ℚ) (m : ℤ), 1 ≤ fr.length → 0 < m →
      videoToolRun true true fr fps m false = VideoRun.err ErrCat.encoderOpenFailure 1) := by
  refine ⟨?_, ?_, ?_, ?_, ?_, ?_, ?_, ?_, ?_⟩
  · intro k m ps
    simp [poseToolRun]
  · intro m ps
    simp [poseToolRun]
  · intro m ps hm
    simp [poseToolRun, hm]
  · intro m hm
    simp [poseToolRun, resample_poses, not_le.mpr hm]
  · intro dec fr fps m enc
    simp [videoToolRun]
  · intro fr fps m enc
    simp [videoToolRun]
  · intro fps m enc
    simp [videoToolRun]
  · intro fr fps m enc hfr hm
    have hne : fr.length ≠ 0 := by omega
    simp [videoToolRun, hne, hm]
  · intro fr fps m hfr hm
    have hne : fr.length ≠ 0 := by omega
    simp [videoToolRun, hne, not_le.mpr hm]

/-- Witness for the amended C8 at the pose tool's invalid-target-count exit. -/
theorem C8_witness :
    ((0 : ℤ) ≤ 0) ∧ poseToolRun true true 0 [] = PoseRun.err ErrCat.invalidTargetCount 4 :=
  ⟨le_refl 0, C8_exit_status_table.2.2.1 0 [] (le_refl 0)⟩

/-- C9: the pose tool passes every top-level field other than `poses` and the
two count fields through unchanged, replaces `poses` with the resampled
sequence, and adds/overwrites the two scalar count fields with `N` and `M`. -/
theorem C9_doc_field_effects (d : Doc) (M : ℕ) :
    (∀ key : String, key ≠ "poses" → key ≠ "original_num_poses" →
      key ≠ "target_num_poses" → getKey (poseToolDoc d M) key = getKey d key) ∧
    getKey (poseToolDoc d M) "poses" =
      some (.mats ((resample_poses (posesOf d) M).getD [])) ∧
    getKey (poseToolDoc d M) "original_num_poses" = some (.num (posesOf d).length) ∧
    getKey (poseToolDoc d M) "target_num_poses" = some (.num M) := by
  refine ⟨?_, ?_, ?_, ?_⟩
  · intro key h1 h2 h3
    unfold poseToolDoc
    rw [getKey_setKey_ne _ _ _ _ h3, getKey_setKey_ne _ _ _ _ h2,
      getKey_setKey_ne _ _ _ _ h1]
  · unfold poseToolDoc
    rw [getKey_setKey_ne _ _ _ _ (by decide), getKey_setKey_ne _ _ _ _ (by decide),
      getKey_setKey_self]
  · unfold poseToolDoc
    rw [getKey_setKey_ne _ _ _ _ (by decide), getKey_setKey_self]
  · unfold poseToolDoc
    rw [getKey_setKey_self]

/-- Witness for C9: an unrelated key of a one-field document is untouched. -/
theorem C9_witness :
    ("widgets" ≠ "poses" ∧ "widgets" ≠ "original_num_poses" ∧
      "widgets" ≠ "target_num_poses") ∧
    getKey (poseToolDoc [("widgets", JVal.num 7)] 3) "widgets" =
      getKey [("widgets", JVal.num 7)] "widgets" :=
  ⟨⟨by decide, by decide, by decide⟩,
   (C9_doc_field_effects [("widgets", JVal.num 7)] 3).1 "widgets"
     (by decide) (by decide) (by decide)⟩

/-- C10: the mapped neighbor index is never negative, so the first-item
boundary branch is unreachable; and for `N >= 2` the output at target index
`0` is produced by the interpolation path with weight `0`, for both tools. -/
theorem C10_first_index_interpolation :
    (∀ N M k : ℕ, 0 ≤ nbrIndex N M k) ∧
    (∀ (poses : List Mat4) (M : ℕ), 2 ≤ poses.length → 1 ≤ M →
      (resample_poses_list poses M).get? 0 = some (interpPose poses 0 0)) ∧
    (∀ (frames : List Frame) (M : ℕ), 2 ≤ frames.length → 1 ≤ M →
      (resample_frames_core frames M).get? 0 =
        some (addWeighted (frames.getD 0 frameDefault) 1
          (frames.getD 1 frameDefault) 0 0)) := by
  refine ⟨nbrIndex_nonneg, ?_, ?_⟩
  · intro poses M hN hM
    have hlt : nbrIndex poses.length M 0 < (poses.length : ℤ) - 1 := by
      rw [nbrIndex_zero_left]
      omega
    rw [resample_poses_list_get _ _ _ (by omega), resampleItemP_interior _ _ _ hlt,
      nbrIndex_zero_left, weight_zero_left]
    simp only [Int.toNat_zero, Rat.cast_zero]
  · intro frames M hN hM
    have hlt : nbrIndex frames.length M 0 < (frames.length : ℤ) - 1 := by
      rw [nbrIndex_zero_left]
      omega
    rw [resample_frames_core_get _ _ _ (by omega), resampleItemF_interior _ _ _ hlt,
      nbrIndex_zero_left, weight_zero_left]
    simp only [Int.toNat_zero, Rat.cast_zero, sub_zero, zero_add]

/-- Witness for C10 on a two-pose and a two-frame input. -/
theorem C10_witness :
    (2 ≤ ([mat4Default, mat4Default] : List Mat4).length ∧ (1 : ℕ) ≤ 2) ∧
    (resample_poses_list [mat4Default, mat4Default] 2).get? 0 =
      some (interpPose [mat4Default, mat4Default] 0 0) ∧
    (resample_frames_core [frameDefault, frameDefault] 2).get? 0 =
      some (addWeighted ([frameDefault, frameDefault].getD 0 frameDefault) 1
        ([frameDefault, frameDefault].getD 1 frameDefault) 0 0) :=
  ⟨⟨by norm_num, by norm_num⟩,
   C10_first_index_interpolation.2.1 [mat4Default, mat4Default] 2 (by norm_num) (by norm_num),
   C10_first_index_interpolation.2.2 [frameDefault, frameDefault] 2 (by norm_num) (by norm_num)⟩

end RecamSpec
